import Mathlib

/-!
Verification of the exponentially-smoothed counter family
(`src/Common/ExponentiallySmoothedCounter.h`) and its aggregate-function
bindings (`AggregateFunctionExponentialSmoothing.cpp`,
`AggregateFunctionHolt.cpp`, `AggregateFunctionHoltWinters.cpp`).

Modelling conventions:
* C++ `double` values are modelled as exact rationals `ℚ`.
* `uint64_t` counts and timestamps are modelled as `ℕ`; the one place where
  unsigned overflow matters (the `timestamp + 1` increment inside
  `add_predict`, which the code guards with an explicit wrap check) is
  written with an explicit `% 2 ^ 64`.
* C++ exceptions are modelled with `Except`: the accumulator header only
  ever throws `std::logic_error`; the engine-side merge wrappers catch
  `std::invalid_argument` and resurface it as the `INCORRECT_DATA`
  error condition.
* The `while` loops of the gap-filling flavours (`predict_until`,
  reached mutually through `merge`/`add`/`add_predict`) are embedded with an
  explicit fuel; `outOfFuel` is an artefact of the embedding that never
  occurs for the fuel bounds supplied by the entry points below.
-/

/-- Error conditions of the C++ code, as the engine can distinguish them:
`logicError` is `std::logic_error` (the only exception the accumulator
header throws), `invalidArgument` is `std::invalid_argument`,
`incorrectData` is the engine's `ErrorCodes::INCORRECT_DATA`, and
`outOfFuel` is the artificial fuel-exhaustion marker of this embedding. -/
inductive CErr where
  | logicError
  | invalidArgument
  | incorrectData
  | outOfFuel
deriving DecidableEq

instance (ε α : Type) [DecidableEq ε] [DecidableEq α] : DecidableEq (Except ε α) :=
  fun a b =>
  match a, b with
  | .ok x, .ok y =>
    if h : x = y then .isTrue (by rw [h]) else .isFalse (fun hh => h (Except.ok.inj hh))
  | .error x, .error y =>
    if h : x = y then .isTrue (by rw [h]) else .isFalse (fun hh => h (Except.error.inj hh))
  | .ok _, .error _ => .isFalse (fun hh => Except.noConfusion hh)
  | .error _, .ok _ => .isFalse (fun hh => Except.noConfusion hh)

/-- Loop of `DataHelper::scale`: binary exponentiation, `result` is the
accumulator, `count` is halved each round.  The `while (count)` loop is
embedded with a fuel that the entry point `scale` sets to `count + 1`,
which strictly exceeds the number of iterations (the loop runs at most
`log2 count + 1` times). -/
def scaleGo : ℕ → ℚ → ℚ → ℕ → ℚ
  | 0, _, result, _ => result
  | fuel + 1, value, result, count =>
    if count = 0 then result
    else scaleGo fuel (value * value) (if count % 2 = 1 then result * value else result) (count / 2)

/-- `DataHelper::scale(value, count)`: equivalent of `pow(value, count)`
computed by binary exponentiation. -/
def scale (value : ℚ) (count : ℕ) : ℚ := scaleGo (count + 1) value 1 count

/-- `DataHelper::scale_one_minus_value(value, count) = scale(1 - value, count)`. -/
def scale_one_minus_value (value : ℚ) (count : ℕ) : ℚ := scale (1 - value) count

/-- `DataHelper::optional_timestamped_value`: a nullable (value, timestamp)
pair. -/
abbrev OptTV : Type := Option (ℚ × ℕ)

/-- `DataHelper::get_value`: the stored value, or 0 when empty. -/
def get_value (o : OptTV) : ℚ :=
  match o with
  | some p => p.1
  | none => 0

/-- `DataHelper::get_timestamp`: the stored timestamp, or 0 when empty. -/
def get_timestamp (o : OptTV) : ℕ :=
  match o with
  | some p => p.2
  | none => 0

/-- `DataHelper::min_or_merge`: the earlier-timestamped marker, summing the
values on a timestamp tie, preferring a present marker over an absent one. -/
def min_or_merge (a b : OptTV) : OptTV :=
  if a = none ∨ b = none then (if a ≠ none then a else b)
  else if get_timestamp a = get_timestamp b then some (get_value a + get_value b, get_timestamp a)
  else if get_timestamp a < get_timestamp b then a else b

/-- `DataHelper::max_or_empty`: the later-timestamped marker, or empty when
either is absent or the timestamps tie. -/
def max_or_empty (a b : OptTV) : OptTV :=
  if a = none ∨ b = none then none
  else if get_timestamp a = get_timestamp b then none
  else if get_timestamp a > get_timestamp b then a else b

/-- `ExponentiallySmoothedAlpha`: count-indexed simple exponential
smoothing state. -/
structure EsAlpha where
  value : ℚ := 0
  count : ℕ := 0
deriving DecidableEq

/-- The default-constructed (empty) `ExponentiallySmoothedAlpha`. -/
def esAlphaEmpty : EsAlpha := {}

/-- `ExponentiallySmoothedAlpha(current_value)`: a single-value counter. -/
def esAlphaSingle (v : ℚ) : EsAlpha := ⟨v, 1⟩

/-- `ExponentiallySmoothedAlpha::merge(a, b, alpha)`. -/
def esAlphaMerge (a b : EsAlpha) (alpha : ℚ) : Except CErr EsAlpha :=
  if a.count = 0 ∨ b.count = 0 then .ok (if a.count = 0 then b else a)
  else if b.count = 1 then
    .ok ⟨alpha * b.value + (1 - alpha) * a.value, b.count + a.count⟩
  else .error .logicError

/-- `ExponentiallySmoothedAlpha::add(new_value, alpha)`. -/
def esAlphaAdd (s : EsAlpha) (v alpha : ℚ) : Except CErr EsAlpha :=
  esAlphaMerge s (esAlphaSingle v) alpha

/-- `ExponentiallySmoothedAlphaWithTime`: time-indexed simple exponential
smoothing (gaps implicitly zero-weighted). -/
structure EsAlphaWT where
  value : ℚ := 0
  timestamp : ℕ := 0
  first_value : OptTV := none
deriving DecidableEq

/-- The default-constructed (empty) `ExponentiallySmoothedAlphaWithTime`. -/
def esAlphaWTEmpty : EsAlphaWT := {}

/-- `ExponentiallySmoothedAlphaWithTime(current_value, current_time)`. -/
def esAlphaWTSingle (v : ℚ) (t : ℕ) : EsAlphaWT := ⟨v, t, some (v, t)⟩

/-- `ExponentiallySmoothedAlphaWithTime::remap`. -/
def esAlphaWTRemap (s : EsAlphaWT) (current_time : ℕ) (alpha : ℚ) : Except CErr EsAlphaWT :=
  if current_time < s.timestamp then .error .logicError
  else .ok ⟨s.value * scale_one_minus_value alpha (current_time - s.timestamp),
            current_time, s.first_value⟩

/-- `ExponentiallySmoothedAlphaWithTime::merge`. -/
def esAlphaWTMerge (a b : EsAlphaWT) (alpha : ℚ) : Except CErr EsAlphaWT :=
  if a.first_value = none ∨ b.first_value = none then
    .ok (if a.first_value ≠ none then a else b)
  else
    let max_time := max a.timestamp b.timestamp
    match esAlphaWTRemap a max_time alpha, esAlphaWTRemap b max_time alpha with
    | .ok remapped_a, .ok remapped_b =>
      let min_first_value := min_or_merge remapped_a.first_value remapped_b.first_value
      let max_first_value := max_or_empty remapped_a.first_value remapped_b.first_value
      .ok ⟨remapped_a.value + remapped_b.value
             - get_value max_first_value
               * scale_one_minus_value alpha (max_time - get_timestamp max_first_value)
               * (1 - alpha),
           max_time, min_first_value⟩
    | .error e, _ => .error e
    | _, .error e => .error e

/-- `ExponentiallySmoothedAlphaWithTime::add(new_value, new_time, alpha)`. -/
def esAlphaWTAdd (s : EsAlphaWT) (v : ℚ) (t : ℕ) (alpha : ℚ) : Except CErr EsAlphaWT :=
  esAlphaWTMerge s (esAlphaWTSingle v t) alpha

/-- `ExponentiallySmoothedAlphaWithTimeFillGaps`: time-indexed simple
exponential smoothing in which skipped ticks are filled by the current
prediction. -/
structure EsFG where
  value : ℚ := 0
  timestamp : ℕ := 0
  count : ℕ := 0
deriving DecidableEq

/-- The default-constructed (empty) `ExponentiallySmoothedAlphaWithTimeFillGaps`. -/
def esFGEmpty : EsFG := {}

/-- `ExponentiallySmoothedAlphaWithTimeFillGaps(current_value, current_time)`. -/
def esFGSingle (v : ℚ) (t : ℕ) : EsFG := ⟨v, t, 1⟩

mutual

/-- `ExponentiallySmoothedAlphaWithTimeFillGaps::merge` (fuelled). -/
def esFGMergeGo : ℕ → EsFG → EsFG → ℚ → Except CErr EsFG
  | 0, _, _, _ => .error .outOfFuel
  | fuel + 1, a, b, alpha =>
    if a.count = 0 ∨ b.count = 0 then .ok (if a.count = 0 then b else a)
    else if b.count = 1 then
      match esFGPredictUntilGo fuel a b.timestamp alpha with
      | .error e => .error e
      | .ok predicted_a =>
        .ok ⟨alpha * b.value + (1 - alpha) * predicted_a.value,
             b.timestamp, predicted_a.count + b.count⟩
    else .error .logicError

/-- `ExponentiallySmoothedAlphaWithTimeFillGaps::predict_until` (fuelled):
the precondition check followed by the prediction loop. -/
def esFGPredictUntilGo : ℕ → EsFG → ℕ → ℚ → Except CErr EsFG
  | 0, _, _, _ => .error .outOfFuel
  | fuel + 1, s, current_time, alpha =>
    if current_time ≤ s.timestamp then .error .logicError
    else esFGPredictLoopGo fuel s current_time alpha

/-- The `while (timestamp + 1 < current_time) add_predict(alpha)` loop of
`predict_until` (fuelled). -/
def esFGPredictLoopGo : ℕ → EsFG → ℕ → ℚ → Except CErr EsFG
  | 0, _, _, _ => .error .outOfFuel
  | fuel + 1, s, current_time, alpha =>
    if s.timestamp + 1 < current_time then
      match esFGAddPredictGo fuel s alpha with
      | .error e => .error e
      | .ok s2 => esFGPredictLoopGo fuel s2 current_time alpha
    else .ok s

/-- `ExponentiallySmoothedAlphaWithTimeFillGaps::add_predict` (fuelled).
The `uint64_t new_time = timestamp + 1` increment is taken mod `2 ^ 64`,
and the code's wrap check `new_time < timestamp` follows.  The value fed
back in is `get(alpha)`, which returns `value`. -/
def esFGAddPredictGo : ℕ → EsFG → ℚ → Except CErr EsFG
  | 0, _, _ => .error .outOfFuel
  | fuel + 1, s, alpha =>
    if s.count = 0 then .error .logicError
    else
      let new_time := (s.timestamp + 1) % 2 ^ 64
      if new_time < s.timestamp then .error .logicError
      else esFGAddGo fuel s s.value new_time alpha

/-- `ExponentiallySmoothedAlphaWithTimeFillGaps::add` (fuelled). -/
def esFGAddGo : ℕ → EsFG → ℚ → ℕ → ℚ → Except CErr EsFG
  | 0, _, _, _, _ => .error .outOfFuel
  | fuel + 1, s, new_value, new_time, alpha =>
    if 0 < s.count ∧ new_time ≤ s.timestamp then .error .logicError
    else esFGMergeGo fuel s (esFGSingle new_value new_time) alpha

end

/-- Entry point for `ExponentiallySmoothedAlphaWithTimeFillGaps::merge`;
the fuel `b.timestamp + 7 + 1` strictly exceeds the number of prediction
steps any call can take. -/
def esFGMerge (a b : EsFG) (alpha : ℚ) : Except CErr EsFG :=
  esFGMergeGo (b.timestamp + 7 + 1) a b alpha

/-- Entry point for `ExponentiallySmoothedAlphaWithTimeFillGaps::add`. -/
def esFGAdd (s : EsFG) (v : ℚ) (t : ℕ) (alpha : ℚ) : Except CErr EsFG :=
  esFGAddGo (t + 7 + 1) s v t alpha

/-- Entry point for `ExponentiallySmoothedAlphaWithTimeFillGaps::add_predict`
(the inner prediction chain advances the timestamp by exactly one, so a
constant fuel suffices). -/
def esFGAddPredict (s : EsFG) (alpha : ℚ) : Except CErr EsFG :=
  esFGAddPredictGo 8 s alpha

/-- `AggregateFunctionExponentialSmoothingAlphaFillGaps::merge`: calls the
accumulator merge inside `try { ... } catch (const std::invalid_argument &)`
and resurfaces a caught `std::invalid_argument` as `INCORRECT_DATA`.
`std::logic_error` is not a subclass of `std::invalid_argument`, so it is
not caught. -/
def esFGEngineMerge (a b : EsFG) (alpha : ℚ) : Except CErr EsFG :=
  match esFGMerge a b alpha with
  | .error .invalidArgument => .error .incorrectData
  | r => r

/-- `Holt`: count-indexed double exponential smoothing (level + trend). -/
structure HoltC where
  value : ℚ := 0
  trend : ℚ := 0
  count : ℕ := 0
deriving DecidableEq

/-- The default-constructed (empty) `Holt`. -/
def holtCEmpty : HoltC := {}

/-- `Holt(current_value)`: single-value counter, trend 0. -/
def holtCSingle (v : ℚ) : HoltC := ⟨v, 0, 1⟩

/-- `Holt::merge(a, b, alpha, beta)`. -/
def holtCMerge (a b : HoltC) (alpha beta : ℚ) : Except CErr HoltC :=
  if a.count = 0 ∨ b.count = 0 then .ok (if a.count = 0 then b else a)
  else if b.count = 1 then
    if a.count = 1 then
      .ok ⟨alpha * b.value + (1 - alpha) * a.value, b.value - a.value, 2⟩
    else
      let new_value := alpha * b.value + (1 - alpha) * (a.value + a.trend)
      .ok ⟨new_value, beta * (new_value - a.value) + (1 - beta) * a.trend, a.count + 1⟩
  else .error .logicError

/-- `Holt::add(new_value, alpha, beta)`. -/
def holtCAdd (s : HoltC) (v alpha beta : ℚ) : Except CErr HoltC :=
  holtCMerge s (holtCSingle v) alpha beta

/-- `HoltWithTime`: time-indexed Holt state with first-value and
first-trend markers. -/
structure HoltWT where
  value : ℚ := 0
  trend : ℚ := 0
  timestamp : ℕ := 0
  first_value : OptTV := none
  first_trend : OptTV := none
deriving DecidableEq

/-- The default-constructed (empty) `HoltWithTime`. -/
def holtWTEmpty : HoltWT := {}

/-- `HoltWithTime(current_value, current_timestamp)`. -/
def holtWTSingle (v : ℚ) (t : ℕ) : HoltWT := ⟨v, 0, t, some (v, t), none⟩

/-- `HoltWithTime::remap`. -/
def holtWTRemap (s : HoltWT) (current_time : ℕ) (alpha beta : ℚ) : Except CErr HoltWT :=
  if current_time < s.timestamp then .error .logicError
  else .ok ⟨s.value * scale_one_minus_value alpha (current_time - s.timestamp),
            s.trend * scale_one_minus_value beta (current_time - s.timestamp),
            current_time, s.first_value, s.first_trend⟩

/-- `HoltWithTime::merge`.  In the no-trend/no-trend branch with distinct
timestamps the C++ divides by the difference of two `uint64_t` marker
timestamps; that subtraction is written with its explicit wrap-around
(and, like the C++, the expression is only meaningful when the marker
timestamps differ, which the surrounding branch guarantees for states
built through `add`/`merge`). -/
def holtWTMerge (a b : HoltWT) (alpha beta : ℚ) : Except CErr HoltWT :=
  if a.first_value = none ∨ b.first_value = none then
    .ok (if a.first_value ≠ none then a else b)
  else if b.first_trend = none then
    if a.first_trend = none then
      if a.timestamp = b.timestamp then
        .ok (holtWTSingle (a.value + b.value) a.timestamp)
      else
        let max_time := max a.timestamp b.timestamp
        match holtWTRemap a max_time alpha beta, holtWTRemap b max_time alpha beta with
        | .ok remapped_a, .ok remapped_b =>
          let max_value := max_or_empty a.first_value b.first_value
          let min_value := min_or_merge a.first_value b.first_value
          let trend := (get_value max_value - get_value min_value)
              / (((get_timestamp max_value + 2 ^ 64 - get_timestamp min_value) % 2 ^ 64 : ℕ) : ℚ)
          .ok ⟨remapped_a.value + remapped_b.value - get_value max_value * (1 - alpha),
               trend, max_time, min_value, some (trend, max_time)⟩
        | .error e, _ => .error e
        | _, .error e => .error e
    else
      if a.timestamp = b.timestamp then
        .ok ⟨a.value + alpha * b.value, a.trend + alpha * beta * b.value, a.timestamp,
             a.first_value, a.first_trend⟩
      else
        let max_time := max a.timestamp b.timestamp
        match holtWTRemap a max_time alpha beta, holtWTRemap b max_time alpha beta with
        | .ok remapped_a, .ok remapped_b =>
          let excess_value := max_or_empty a.first_value b.first_value
          let excess_trend := max_or_empty a.first_trend b.first_trend
          .ok ⟨remapped_a.value + remapped_b.value
                 - get_value excess_value
                   * scale_one_minus_value alpha (max_time - get_timestamp excess_value)
                   * (1 - alpha),
               remapped_a.trend + remapped_b.trend
                 - get_value excess_trend
                   * scale_one_minus_value beta (max_time - get_timestamp excess_trend)
                   * (1 - beta),
               max_time, min_or_merge a.first_value b.first_value,
               min_or_merge a.first_trend b.first_trend⟩
        | .error e, _ => .error e
        | _, .error e => .error e
  else .error .logicError

/-- `HoltWithTime::add(new_value, new_timestamp, alpha, beta)`. -/
def holtWTAdd (s : HoltWT) (v : ℚ) (t : ℕ) (alpha beta : ℚ) : Except CErr HoltWT :=
  holtWTMerge s (holtWTSingle v t) alpha beta

/-- `HoltWithTimeFillGaps`: time-indexed Holt in which skipped ticks are
filled by the current prediction. -/
structure HoltFG where
  value : ℚ := 0
  trend : ℚ := 0
  timestamp : ℕ := 0
  count : ℕ := 0
deriving DecidableEq

/-- The default-constructed (empty) `HoltWithTimeFillGaps`. -/
def holtFGEmpty : HoltFG := {}

/-- `HoltWithTimeFillGaps(current_value, current_timestamp)`. -/
def holtFGSingle (v : ℚ) (t : ℕ) : HoltFG := ⟨v, 0, t, 1⟩

mutual

/-- `HoltWithTimeFillGaps::merge` (fuelled).  Note the source uses
`b.value - a.value` (the original `a`, not the predicted one) for the
freshly-established trend, and `a.count + 1` for the new count. -/
def holtFGMergeGo : ℕ → HoltFG → HoltFG → ℚ → ℚ → Except CErr HoltFG
  | 0, _, _, _, _ => .error .outOfFuel
  | fuel + 1, a, b, alpha, beta =>
    if a.count = 0 ∨ b.count = 0 then .ok (if a.count = 0 then b else a)
    else if b.count = 1 then
      match holtFGPredictUntilGo fuel a b.timestamp alpha beta with
      | .error e => .error e
      | .ok predicted_a =>
        if predicted_a.count = 1 then
          .ok ⟨alpha * b.value + (1 - alpha) * predicted_a.value,
               b.value - a.value, b.timestamp, 2⟩
        else
          let new_value := alpha * b.value + (1 - alpha) * (predicted_a.value + predicted_a.trend)
          .ok ⟨new_value,
               beta * (new_value - predicted_a.value) + (1 - beta) * predicted_a.trend,
               b.timestamp, a.count + 1⟩
    else .error .logicError

/-- `HoltWithTimeFillGaps::predict_until` (fuelled). -/
def holtFGPredictUntilGo : ℕ → HoltFG → ℕ → ℚ → ℚ → Except CErr HoltFG
  | 0, _, _, _, _ => .error .outOfFuel
  | fuel + 1, s, current_time, alpha, beta =>
    if current_time ≤ s.timestamp then .error .logicError
    else holtFGPredictLoopGo fuel s current_time alpha beta

/-- The `while (timestamp + 1 < current_time) add_predict(alpha, beta)`
loop of `HoltWithTimeFillGaps::predict_until` (fuelled). -/
def holtFGPredictLoopGo : ℕ → HoltFG → ℕ → ℚ → ℚ → Except CErr HoltFG
  | 0, _, _, _, _ => .error .outOfFuel
  | fuel + 1, s, current_time, alpha, beta =>
    if s.timestamp + 1 < current_time then
      match holtFGAddPredictGo fuel s alpha beta with
      | .error e => .error e
      | .ok s2 => holtFGPredictLoopGo fuel s2 current_time alpha beta
    else .ok s

/-- `HoltWithTimeFillGaps::add_predict` (fuelled).  The value fed back in
is `get(alpha, beta) = value + trend`; the `timestamp + 1` increment is
taken mod `2 ^ 64` with the code's wrap check. -/
def holtFGAddPredictGo : ℕ → HoltFG → ℚ → ℚ → Except CErr HoltFG
  | 0, _, _, _ => .error .outOfFuel
  | fuel + 1, s, alpha, beta =>
    if s.count = 0 then .error .logicError
    else
      let new_time := (s.timestamp + 1) % 2 ^ 64
      if new_time < s.timestamp then .error .logicError
      else holtFGAddGo fuel s (s.value + s.trend) new_time alpha beta

/-- `HoltWithTimeFillGaps::add` (fuelled). -/
def holtFGAddGo : ℕ → HoltFG → ℚ → ℕ → ℚ → ℚ → Except CErr HoltFG
  | 0, _, _, _, _, _ => .error .outOfFuel
  | fuel + 1, s, new_value, new_time, alpha, beta =>
    if 0 < s.count ∧ new_time ≤ s.timestamp then .error .logicError
    else holtFGMergeGo fuel s (holtFGSingle new_value new_time) alpha beta

end

/-- Entry point for `HoltWithTimeFillGaps::merge`. -/
def holtFGMerge (a b : HoltFG) (alpha beta : ℚ) : Except CErr HoltFG :=
  holtFGMergeGo (b.timestamp + 7 + 1) a b alpha beta

/-- Entry point for `HoltWithTimeFillGaps::add`. -/
def holtFGAdd (s : HoltFG) (v : ℚ) (t : ℕ) (alpha beta : ℚ) : Except CErr HoltFG :=
  holtFGAddGo (t + 7 + 1) s v t alpha beta

/-- Entry point for `HoltWithTimeFillGaps::add_predict`. -/
def holtFGAddPredict (s : HoltFG) (alpha beta : ℚ) : Except CErr HoltFG :=
  holtFGAddPredictGo 8 s alpha beta

/-- `AggregateFunctionHoltFillGaps::merge`: like the simple-smoothing
fill-gaps engine merge, catches only `std::invalid_argument` and rethrows
it as `INCORRECT_DATA`. -/
def holtFGEngineMerge (a b : HoltFG) (alpha beta : ℚ) : Except CErr HoltFG :=
  match holtFGMerge a b alpha beta with
  | .error .invalidArgument => .error .incorrectData
  | r => r

/-- A wire token written by the engine's binary I/O primitives
(`writeBinary`/`readBinary`); field order on the wire is the order of
the token list. -/
inductive Tok where
  | tf (x : ℚ)
  | tn (x : ℕ)
  | tb (x : Bool)
deriving DecidableEq

/-- A nullable marker stored as raw fields plus a boolean `was` flag, the
layout the WithTime serializers read and write field by field
(`first_value.value`, `first_value.timestamp`, `first_value.was`, ...). -/
structure RawMarker where
  value : ℚ := 0
  timestamp : ℕ := 0
  was : Bool := false
deriving DecidableEq

/-- Modelled from the spec: the `HoltWintersWithTime` aggregator struct is
not under src/ (only its callers in `AggregateFunctionHoltWinters.cpp`
are).  Its fields follow spec §3 and the field accesses of
`serialize`/`deserialize`/`insertResultInto`: level `value`, `trend`, an
optional seasonal ring `seasons` of `seasons_count` slots, the reference
`timestamp`, and raw-field markers `first_value`/`first_trend` with `was`
flags. -/
structure HWTimeData where
  value : ℚ := 0
  trend : ℚ := 0
  seasons : Option (List ℚ) := none
  timestamp : ℕ := 0
  first_value : RawMarker := {}
  first_trend : RawMarker := {}
deriving DecidableEq

/-- Modelled from the spec: `getSeason(i)` reads slot `i` of the seasonal
ring (0 when the ring is absent). -/
def getSeason (s : HWTimeData) (i : ℕ) : ℚ :=
  match s.seasons with
  | some l => l.getD i 0
  | none => 0

/-- `AggregateFunctionHoltWintersBase::serialize` followed by the
`AggregateFunctionHoltWintersWithTime::serialize` extension: value, trend,
a has-seasons flag, the `seasons_count` season slots when present, then
timestamp and the two markers field by field including their `was` flags. -/
def hwSerialize (seasons_count : ℕ) (s : HWTimeData) : List Tok :=
  [.tf s.value, .tf s.trend] ++
  (match s.seasons with
   | none => [.tb false]
   | some _ => .tb true :: (List.range seasons_count).map (fun i => .tf (getSeason s i))) ++
  [.tn s.timestamp,
   .tf s.first_value.value, .tn s.first_value.timestamp, .tb s.first_value.was,
   .tf s.first_trend.value, .tn s.first_trend.timestamp, .tb s.first_trend.was]

/-- `readBinary` of one Float64. -/
def readTokF : List Tok → Option (ℚ × List Tok)
  | .tf x :: r => some (x, r)
  | _ => none

/-- `readBinary` of one unsigned integer. -/
def readTokN : List Tok → Option (ℕ × List Tok)
  | .tn x :: r => some (x, r)
  | _ => none

/-- `readBinary` of one boolean. -/
def readTokB : List Tok → Option (Bool × List Tok)
  | .tb x :: r => some (x, r)
  | _ => none

/-- The deserialize loop that reads `seasons_count` Float64 season slots. -/
def readSeasonsTok : ℕ → List Tok → Option (List ℚ × List Tok)
  | 0, r => some ([], r)
  | k + 1, r =>
    match readTokF r with
    | none => none
    | some (x, r2) =>
      match readSeasonsTok k r2 with
      | none => none
      | some (l, r3) => some (x :: l, r3)

/-- `AggregateFunctionHoltWintersBase::deserialize` followed by the
WithTime extension, reading into a fresh default state: value, trend,
has-seasons flag (ring left absent when false), season slots, timestamp,
and the two markers field by field. -/
def hwDeserialize (seasons_count : ℕ) (toks : List Tok) : Option (HWTimeData × List Tok) :=
  match readTokF toks with
  | none => none
  | some (v, r1) =>
    match readTokF r1 with
    | none => none
    | some (tr, r2) =>
      match readTokB r2 with
      | none => none
      | some (has_seasons, r3) =>
        let seasonsRead : Option (Option (List ℚ) × List Tok) :=
          if has_seasons then
            match readSeasonsTok seasons_count r3 with
            | none => none
            | some (l, r4) => some (some l, r4)
          else some (none, r3)
        match seasonsRead with
        | none => none
        | some (seas, r4) =>
          match readTokN r4 with
          | none => none
          | some (ts, r5) =>
            match readTokF r5 with
            | none => none
            | some (fvv, r6) =>
              match readTokN r6 with
              | none => none
              | some (fvt, r7) =>
                match readTokB r7 with
                | none => none
                | some (fvw, r8) =>
                  match readTokF r8 with
                  | none => none
                  | some (ftv, r9) =>
                    match readTokN r9 with
                    | none => none
                    | some (ftt, r10) =>
                      match readTokB r10 with
                      | none => none
                      | some (ftw, r11) =>
                        some (⟨v, tr, seas, ts, ⟨fvv, fvt, fvw⟩, ⟨ftv, ftt, ftw⟩⟩, r11)

/-- Shallow model of the engine's declared result data types. -/
inductive ResultDT where
  | float64
  | tupleT (components : List ResultDT)
  | arrayT (element : ResultDT)

/-- `AggregateFunctionHoltWintersBase::createResultType`: a tuple of three
plain Float64 columns. -/
def hwCreateResultType : ResultDT := .tupleT [.float64, .float64, .float64]

/-- The component names of `createResultType`. -/
def hwResultNames : List String := ["next value", "trend", "seasons"]

/-- `AggregateFunctionHoltWintersBase::insertResultInto`, reduced to how
many values it pushes into each tuple column: one into the value column,
one into the trend column, and `seasons_count` into the seasons column. -/
def hwInsertPushCounts (seasons_count : ℕ) : List ℕ := [1, 1, seasons_count]

/-- Modelled from the spec: HoltWinters `add` folds the k-th added value
into season slot `k mod seasons_count` (§4.7); the aggregator struct is
not under src/.  `hwSlotsTouched adds seasons_count` lists the slots hit
by the first `adds` calls in order. -/
def hwSlotsTouched (adds seasons_count : ℕ) : List ℕ :=
  (List.range adds).map (fun k => k % seasons_count)

/-- The binary-exponentiation loop computes `result * value ^ count`
whenever the fuel exceeds the count. -/
theorem scaleGo_eq (fuel : ℕ) :
    ∀ count : ℕ, count < fuel → ∀ v r : ℚ, scaleGo fuel v r count = r * v ^ count := by
  induction fuel with
  | zero => intro c hc; omega
  | succ f ih =>
    intro c hc v r
    by_cases h : c = 0
    · subst h; simp [scaleGo]
    · have h2 : c / 2 < f := by omega
      have hrec := ih (c / 2) h2 (v * v) (if c % 2 = 1 then r * v else r)
      simp only [scaleGo, if_neg h]
      rw [hrec]
      have hvv : v * v = v ^ 2 := (pow_two v).symm
      rcases Nat.mod_two_eq_zero_or_one c with hp | hp
      · have hc2 : 2 * (c / 2) = c := by omega
        rw [if_neg (by omega : ¬ c % 2 = 1), hvv, ← pow_mul, hc2]
      · have hc2 : c = 2 * (c / 2) + 1 := by omega
        rw [if_pos hp, hvv, ← pow_mul]
        conv_rhs => rw [hc2]
        rw [pow_succ]
        ring

/-- `scale` is the exact power function. -/
theorem scale_eq_pow (v : ℚ) (c : ℕ) : scale v c = v ^ c := by
  unfold scale
  rw [scaleGo_eq (c + 1) c (Nat.lt_succ_self c), one_mul]

/-- C9: the binary-exponentiation kernel equals the naive power reference:
`scale(v, 0) = 1`; for `n > 0`, `scale(v, n) = v * scale(v, n-1)`; and
`scale_one_minus_value(alpha, n) = scale(1 - alpha, n)`.  `scale` is a
total function of its inputs (no failure case exists). -/
theorem c9_scale_correct (v : ℚ) (n : ℕ) :
    scale v 0 = 1 ∧ (0 < n → scale v n = v * scale v (n - 1)) ∧
    scale_one_minus_value v n = scale (1 - v) n := by
  refine ⟨by rw [scale_eq_pow, pow_zero], fun hn => ?_, rfl⟩
  rw [scale_eq_pow, scale_eq_pow]
  have h : n = (n - 1) + 1 := by omega
  conv_lhs => rw [h]
  rw [pow_succ]
  ring

/-- Witness for C9 at `v = 1/2`, `n = 3`. -/
theorem c9_scale_correct_witness :
    0 < 3 ∧ scale (1/2 : ℚ) 3 = (1/2) * scale (1/2 : ℚ) 2 :=
  ⟨by norm_num, (c9_scale_correct (1/2) 3).2.1 (by norm_num)⟩

/-- C2 counterexample: on non-empty `a = (1, 1)` and `b = (2, 2)` with
`b.count > 1`, the count-indexed merge does fail, but the exception thrown
is `std::logic_error`, not `std::invalid_argument`: the claim's
"fails with an invalid-argument condition" is false at this input. -/
theorem c2_count_merge_counterexample :
    esAlphaMerge ⟨1, 1⟩ ⟨2, 2⟩ (1/2) ≠ .error .invalidArgument ∧
    esAlphaMerge ⟨1, 1⟩ ⟨2, 2⟩ (1/2) = .error .logicError := by
  constructor
  · norm_num [esAlphaMerge]
    decide
  · norm_num [esAlphaMerge]

/-- C2 (amended): for every non-empty `a` and every `b` with
`b.count = 1`, the count-indexed merge returns
`value = alpha*b.value + (1-alpha)*a.value` and `count = a.count + b.count`;
and for every `b` with `b.count > 1` it fails with the logic-error
(contract-violation) condition `std::logic_error`. -/
theorem c2_count_merge (a b : EsAlpha) (alpha : ℚ) (ha : a.count ≠ 0) :
    (b.count = 1 →
      esAlphaMerge a b alpha
        = .ok ⟨alpha * b.value + (1 - alpha) * a.value, a.count + b.count⟩) ∧
    (1 < b.count → esAlphaMerge a b alpha = .error .logicError) := by
  constructor
  · intro hb
    simp [esAlphaMerge, ha, hb, Nat.add_comm]
  · intro hb
    have h1 : ¬ b.count = 0 := by omega
    have h2 : ¬ b.count = 1 := by omega
    simp [esAlphaMerge, ha, h1, h2]

/-- Witness for C2 at `a = (2, 3)`, `b = (5, 1)`, `alpha = 1/3`. -/
theorem c2_count_merge_witness :
    (⟨2, 3⟩ : EsAlpha).count ≠ 0 ∧
    esAlphaMerge ⟨2, 3⟩ ⟨5, 1⟩ (1/3) = .ok ⟨(1/3) * 5 + (1 - 1/3) * 2, 3 + 1⟩ :=
  ⟨by decide, (c2_count_merge ⟨2, 3⟩ ⟨5, 1⟩ (1/3) (by decide)).1 rfl⟩

/-- C5: count-indexed Holt: adding `x` to the empty state yields
`count = 1`, `trend = 0`; the second `add(y)` yields trend exactly
`y - x` (and the level `alpha*y + (1-alpha)*x`, `count = 2`). -/
theorem c5_holt_first_two (x y alpha beta : ℚ) :
    holtCAdd holtCEmpty x alpha beta = .ok ⟨x, 0, 1⟩ ∧
    holtCAdd ⟨x, 0, 1⟩ y alpha beta = .ok ⟨alpha * y + (1 - alpha) * x, y - x, 2⟩ := by
  constructor
  · simp [holtCAdd, holtCMerge, holtCEmpty, holtCSingle]
  · simp [holtCAdd, holtCMerge, holtCSingle]

/-- Adding to the empty time-indexed counter yields the single-value
counter unchanged. -/
theorem esAlphaWTAdd_empty (v : ℚ) (t : ℕ) (alpha : ℚ) :
    esAlphaWTAdd esAlphaWTEmpty v t alpha = .ok (esAlphaWTSingle v t) := by
  simp [esAlphaWTAdd, esAlphaWTMerge, esAlphaWTEmpty, esAlphaWTSingle]

/-- C1: for time-indexed (no gap-fill) simple smoothing with any
`alpha ∈ [0,1]`, merging the two separately-built states `add(1,0)` and
`add(1,1)` equals sequentially applying `add(1,0); add(1,1)` on one empty
state, and the common result is the state with value 1, timestamp 1 and
first-value marker `(1, 0)`. -/
theorem c1_wt_merge_eq_seq (alpha : ℚ) (_h0 : 0 ≤ alpha) (_h1 : alpha ≤ 1) :
    ((esAlphaWTAdd esAlphaWTEmpty 1 0 alpha).bind fun s => esAlphaWTAdd s 1 1 alpha)
      = ((esAlphaWTAdd esAlphaWTEmpty 1 0 alpha).bind fun s1 =>
          (esAlphaWTAdd esAlphaWTEmpty 1 1 alpha).bind fun s2 => esAlphaWTMerge s1 s2 alpha) ∧
    ((esAlphaWTAdd esAlphaWTEmpty 1 0 alpha).bind fun s => esAlphaWTAdd s 1 1 alpha)
      = .ok ⟨1, 1, some (1, 0)⟩ := by
  have hmerge : esAlphaWTMerge (esAlphaWTSingle 1 0) (esAlphaWTSingle 1 1) alpha
      = .ok ⟨1, 1, some (1, 0)⟩ := by
    simp [esAlphaWTMerge, esAlphaWTSingle, esAlphaWTRemap, min_or_merge, max_or_empty,
      get_value, get_timestamp, scale_one_minus_value, scale, scaleGo]
  constructor
  · rw [esAlphaWTAdd_empty, esAlphaWTAdd_empty]
    rfl
  · rw [esAlphaWTAdd_empty]
    show esAlphaWTMerge (esAlphaWTSingle 1 0) (esAlphaWTSingle 1 1) alpha
        = .ok ⟨1, 1, some (1, 0)⟩
    exact hmerge

/-- Witness for C1 at `alpha = 1/2`. -/
theorem c1_wt_merge_eq_seq_witness :
    (0 : ℚ) ≤ 1/2 ∧ (1/2 : ℚ) ≤ 1 ∧
    ((esAlphaWTAdd esAlphaWTEmpty 1 0 (1/2)).bind fun s => esAlphaWTAdd s 1 1 (1/2))
      = ((esAlphaWTAdd esAlphaWTEmpty 1 0 (1/2)).bind fun s1 =>
          (esAlphaWTAdd esAlphaWTEmpty 1 1 (1/2)).bind fun s2 => esAlphaWTMerge s1 s2 (1/2)) :=
  ⟨by norm_num, by norm_num, (c1_wt_merge_eq_seq (1/2) (by norm_num) (by norm_num)).1⟩

/-- C3: for every accumulator flavour (count-indexed simple, time-indexed
simple, gap-filling simple, and Holt in all three flavours), merging the
empty state with a state `S` in either argument order returns `S`
unchanged in every field, for every `S` satisfying the documented
invariant that an empty-marked state (count 0 / absent first marker) is
the default-constructed empty state. -/
theorem c3_empty_merge_identity (alpha beta : ℚ)
    (s1 : EsAlpha) (s2 : EsAlphaWT) (s3 : EsFG) (s4 : HoltC) (s5 : HoltWT) (s6 : HoltFG)
    (h1 : s1.count = 0 → s1 = esAlphaEmpty)
    (h2 : s2.first_value = none → s2 = esAlphaWTEmpty)
    (h3 : s3.count = 0 → s3 = esFGEmpty)
    (h4 : s4.count = 0 → s4 = holtCEmpty)
    (h5 : s5.first_value = none → s5 = holtWTEmpty)
    (h6 : s6.count = 0 → s6 = holtFGEmpty) :
    (esAlphaMerge esAlphaEmpty s1 alpha = .ok s1 ∧
     esAlphaMerge s1 esAlphaEmpty alpha = .ok s1) ∧
    (esAlphaWTMerge esAlphaWTEmpty s2 alpha = .ok s2 ∧
     esAlphaWTMerge s2 esAlphaWTEmpty alpha = .ok s2) ∧
    (esFGMerge esFGEmpty s3 alpha = .ok s3 ∧
     esFGMerge s3 esFGEmpty alpha = .ok s3) ∧
    (holtCMerge holtCEmpty s4 alpha beta = .ok s4 ∧
     holtCMerge s4 holtCEmpty alpha beta = .ok s4) ∧
    (holtWTMerge holtWTEmpty s5 alpha beta = .ok s5 ∧
     holtWTMerge s5 holtWTEmpty alpha beta = .ok s5) ∧
    (holtFGMerge holtFGEmpty s6 alpha beta = .ok s6 ∧
     holtFGMerge s6 holtFGEmpty alpha beta = .ok s6) := by
  refine ⟨⟨?_, ?_⟩, ⟨?_, ?_⟩, ⟨?_, ?_⟩, ⟨?_, ?_⟩, ⟨?_, ?_⟩, ⟨?_, ?_⟩⟩
  · simp [esAlphaMerge, esAlphaEmpty]
  · by_cases hc : s1.count = 0
    · rw [h1 hc]; simp [esAlphaMerge, esAlphaEmpty]
    · simp [esAlphaMerge, esAlphaEmpty, hc]
  · simp [esAlphaWTMerge, esAlphaWTEmpty]
  · by_cases hc : s2.first_value = none
    · rw [h2 hc]; simp [esAlphaWTMerge, esAlphaWTEmpty]
    · simp [esAlphaWTMerge, esAlphaWTEmpty, hc]
  · simp [esFGMerge, esFGMergeGo, esFGEmpty]
  · by_cases hc : s3.count = 0
    · rw [h3 hc]; simp [esFGMerge, esFGMergeGo, esFGEmpty]
    · simp [esFGMerge, esFGMergeGo, esFGEmpty, hc]
  · simp [holtCMerge, holtCEmpty]
  · by_cases hc : s4.count = 0
    · rw [h4 hc]; simp [holtCMerge, holtCEmpty]
    · simp [holtCMerge, holtCEmpty, hc]
  · simp [holtWTMerge, holtWTEmpty]
  · by_cases hc : s5.first_value = none
    · rw [h5 hc]; simp [holtWTMerge, holtWTEmpty]
    · simp [holtWTMerge, holtWTEmpty, hc]
  · simp [holtFGMerge, holtFGMergeGo, holtFGEmpty]
  · by_cases hc : s6.count = 0
    · rw [h6 hc]; simp [holtFGMerge, holtFGMergeGo, holtFGEmpty]
    · simp [holtFGMerge, holtFGMergeGo, holtFGEmpty, hc]

/-- Witness for C3 at concrete non-empty states in every flavour. -/
theorem c3_empty_merge_identity_witness :
    ((⟨2, 1⟩ : EsAlpha).count = 0 → (⟨2, 1⟩ : EsAlpha) = esAlphaEmpty) ∧
    esAlphaMerge esAlphaEmpty ⟨2, 1⟩ (1/2) = .ok ⟨2, 1⟩ ∧
    esFGMerge ⟨3, 4, 2⟩ esFGEmpty (1/2) = .ok ⟨3, 4, 2⟩ :=
  ⟨by decide,
   (c3_empty_merge_identity (1/2) (1/2) ⟨2, 1⟩ ⟨1, 0, some (1, 0)⟩ ⟨3, 4, 2⟩ ⟨1, 0, 1⟩
      ⟨1, 0, 0, some (1, 0), none⟩ ⟨1, 0, 0, 1⟩
      (by decide) (by decide) (by decide) (by decide) (by decide) (by decide)).1.1,
   (c3_empty_merge_identity (1/2) (1/2) ⟨2, 1⟩ ⟨1, 0, some (1, 0)⟩ ⟨3, 4, 2⟩ ⟨1, 0, 1⟩
      ⟨1, 0, 0, some (1, 0), none⟩ ⟨1, 0, 0, 1⟩
      (by decide) (by decide) (by decide) (by decide) (by decide) (by decide)).2.2.1.2⟩

/-- C4: gap-filling simple smoothing with `alpha = 1/2`: starting empty,
`add(10,0); add(20,2)` equals `add(10,0); add_predict(); add(20,2)`, and
the common final state has value 15, timestamp 2 (and count 3): the
skipped tick at timestamp 1 is filled with the prediction 10, not with a
zero-weighted decay step. -/
theorem c4_fillgaps_gap_equals_predict :
    ((esFGAdd esFGEmpty 10 0 (1/2)).bind fun s => esFGAdd s 20 2 (1/2))
      = ((esFGAdd esFGEmpty 10 0 (1/2)).bind fun s =>
          (esFGAddPredict s (1/2)).bind fun s2 => esFGAdd s2 20 2 (1/2)) ∧
    ((esFGAdd esFGEmpty 10 0 (1/2)).bind fun s => esFGAdd s 20 2 (1/2))
      = .ok ⟨15, 2, 3⟩ := by
  constructor <;>
    norm_num [esFGAdd, esFGAddPredict, esFGEmpty, esFGSingle, esFGAddGo, esFGMergeGo,
      esFGPredictUntilGo, esFGPredictLoopGo, esFGAddPredictGo, Except.bind]

/-- C8 (code-bug evidence): a gap-filling `add` or engine-level `merge`
whose timestamp is not strictly greater than the current timestamp of a
non-empty state does fail, but the failure surfaces as the generic
`std::logic_error` contract violation: since the engine wrapper catches
only `std::invalid_argument`, the error is not converted to the
distinguished `INCORRECT_DATA` condition. -/
theorem c8_error_kind :
    esFGAdd ⟨1, 5, 1⟩ 2 5 (1/2) = .error .logicError ∧
    esFGEngineMerge ⟨1, 5, 1⟩ ⟨2, 5, 1⟩ (1/2) = .error .logicError ∧
    holtFGEngineMerge ⟨1, 0, 5, 1⟩ ⟨2, 0, 5, 1⟩ (1/2) (1/2) = .error .logicError ∧
    CErr.logicError ≠ CErr.incorrectData := by
  refine ⟨?_, ?_, ?_, by decide⟩
  · norm_num [esFGAdd, esFGAddGo]
  · norm_num [esFGEngineMerge, esFGMerge, esFGMergeGo, esFGPredictUntilGo]
  · norm_num [holtFGEngineMerge, holtFGMerge, holtFGMergeGo, holtFGPredictUntilGo]


/-- Closed form of the simple gap-filling `add_predict`: it errors on the
empty state or on timestamp wrap-around, and otherwise appends the
current value at `timestamp + 1`. -/
theorem esFGAddPredict_char (s : EsFG) (alpha : ℚ) :
    esFGAddPredict s alpha =
      if s.count = 0 then .error .logicError
      else if (s.timestamp + 1) % 2 ^ 64 < s.timestamp then .error .logicError
      else .ok ⟨alpha * s.value + (1 - alpha) * s.value,
                (s.timestamp + 1) % 2 ^ 64, s.count + 1⟩ := by
  have h64 : (2 : ℕ) ^ 64 = 18446744073709551616 := by norm_num
  by_cases hc : s.count = 0
  · simp [esFGAddPredict, esFGAddPredictGo, hc]
  · by_cases ho : (s.timestamp + 1) % 2 ^ 64 < s.timestamp
    · have ho' : (s.timestamp + 1) % 18446744073709551616 < s.timestamp := by
        rw [← h64]; exact ho
      simp [esFGAddPredict, esFGAddPredictGo, hc, ho']
    · have e0 : (s.timestamp + 1) % 18446744073709551616 = s.timestamp + 1 := by
        rw [h64] at ho; omega
      have e1 : ¬ (s.timestamp + 1 < s.timestamp) := by omega
      have e2 : ¬ (s.timestamp + 1 ≤ s.timestamp) := by omega
      simp [esFGAddPredict, esFGAddPredictGo, hc, esFGAddGo, esFGMergeGo,
        esFGPredictUntilGo, esFGPredictLoopGo, esFGSingle, e0, e1, e2]

/-- Closed form of the Holt gap-filling `add_predict`: it errors on the
empty state or on timestamp wrap-around, and otherwise appends the
prediction `value + trend` at `timestamp + 1` (with the count-1 trend
initialisation special case). -/
theorem holtFGAddPredict_char (s : HoltFG) (alpha beta : ℚ) :
    holtFGAddPredict s alpha beta =
      if s.count = 0 then .error .logicError
      else if (s.timestamp + 1) % 2 ^ 64 < s.timestamp then .error .logicError
      else if s.count = 1 then
        .ok ⟨alpha * (s.value + s.trend) + (1 - alpha) * s.value,
             (s.value + s.trend) - s.value, (s.timestamp + 1) % 2 ^ 64, 2⟩
      else
        .ok ⟨alpha * (s.value + s.trend) + (1 - alpha) * (s.value + s.trend),
             beta * ((alpha * (s.value + s.trend) + (1 - alpha) * (s.value + s.trend)) - s.value)
               + (1 - beta) * s.trend,
             (s.timestamp + 1) % 2 ^ 64, s.count + 1⟩ := by
  have h64 : (2 : ℕ) ^ 64 = 18446744073709551616 := by norm_num
  by_cases hc : s.count = 0
  · simp [holtFGAddPredict, holtFGAddPredictGo, hc]
  · by_cases ho : (s.timestamp + 1) % 2 ^ 64 < s.timestamp
    · have ho' : (s.timestamp + 1) % 18446744073709551616 < s.timestamp := by
        rw [← h64]; exact ho
      simp [holtFGAddPredict, holtFGAddPredictGo, hc, ho']
    · have e0 : (s.timestamp + 1) % 18446744073709551616 = s.timestamp + 1 := by
        rw [h64] at ho; omega
      have e1 : ¬ (s.timestamp + 1 < s.timestamp) := by omega
      have e2 : ¬ (s.timestamp + 1 ≤ s.timestamp) := by omega
      by_cases h1 : s.count = 1
      · simp [holtFGAddPredict, holtFGAddPredictGo, hc, h1, holtFGAddGo,
          holtFGMergeGo, holtFGPredictUntilGo, holtFGPredictLoopGo, holtFGSingle, e0, e1, e2]
      · simp [holtFGAddPredict, holtFGAddPredictGo, hc, h1, holtFGAddGo,
          holtFGMergeGo, holtFGPredictUntilGo, holtFGPredictLoopGo, holtFGSingle, e0, e1, e2]

/-- C10: for both gap-filling accumulators, `add_predict` on a non-empty
state whose timestamp is the maximum 64-bit value fails with an error
instead of wrapping the timestamp to 0; and across every successful
`add_predict` the stored timestamp never decreases. -/
theorem c10_add_predict_no_wrap (s : EsFG) (t : HoltFG) (alpha beta : ℚ) :
    (0 < s.count → s.timestamp = 2 ^ 64 - 1 →
      esFGAddPredict s alpha = .error .logicError) ∧
    (∀ s2, esFGAddPredict s alpha = .ok s2 → s.timestamp ≤ s2.timestamp) ∧
    (0 < t.count → t.timestamp = 2 ^ 64 - 1 →
      holtFGAddPredict t alpha beta = .error .logicError) ∧
    (∀ t2, holtFGAddPredict t alpha beta = .ok t2 → t.timestamp ≤ t2.timestamp) := by
  have h64 : (2 : ℕ) ^ 64 = 18446744073709551616 := by norm_num
  refine ⟨?_, ?_, ?_, ?_⟩
  · intro hc ht
    rw [esFGAddPredict_char, if_neg (by omega), if_pos (by rw [ht, h64]; omega)]
  · intro s2 h
    rw [esFGAddPredict_char] at h
    by_cases hc : s.count = 0
    · rw [if_pos hc] at h; exact absurd h (by simp)
    · rw [if_neg hc] at h
      by_cases ho : (s.timestamp + 1) % 2 ^ 64 < s.timestamp
      · rw [if_pos ho] at h; exact absurd h (by simp)
      · rw [if_neg ho] at h
        have hts : s2.timestamp = (s.timestamp + 1) % 2 ^ 64 := by
          rw [← Except.ok.inj h]
        rw [h64] at ho hts
        omega
  · intro hc ht
    rw [holtFGAddPredict_char, if_neg (by omega), if_pos (by rw [ht, h64]; omega)]
  · intro t2 h
    rw [holtFGAddPredict_char] at h
    by_cases hc : t.count = 0
    · rw [if_pos hc] at h; exact absurd h (by simp)
    · rw [if_neg hc] at h
      by_cases ho : (t.timestamp + 1) % 2 ^ 64 < t.timestamp
      · rw [if_pos ho] at h; exact absurd h (by simp)
      · rw [if_neg ho] at h
        by_cases h1 : t.count = 1
        · rw [if_pos h1] at h
          have hts : t2.timestamp = (t.timestamp + 1) % 2 ^ 64 := by
            rw [← Except.ok.inj h]
          rw [h64] at ho hts
          omega
        · rw [if_neg h1] at h
          have hts : t2.timestamp = (t.timestamp + 1) % 2 ^ 64 := by
            rw [← Except.ok.inj h]
          rw [h64] at ho hts
          omega

/-- Witness for C10 at states sitting at the maximal 64-bit timestamp. -/
theorem c10_add_predict_no_wrap_witness :
    0 < (1 : ℕ) ∧
    esFGAddPredict ⟨1, 2 ^ 64 - 1, 1⟩ (1/2) = .error .logicError ∧
    holtFGAddPredict ⟨1, 0, 2 ^ 64 - 1, 1⟩ (1/2) (1/2) = .error .logicError :=
  ⟨by norm_num,
   (c10_add_predict_no_wrap ⟨1, 2 ^ 64 - 1, 1⟩ ⟨1, 0, 2 ^ 64 - 1, 1⟩ (1/2) (1/2)).1
     (by norm_num) rfl,
   (c10_add_predict_no_wrap ⟨1, 2 ^ 64 - 1, 1⟩ ⟨1, 0, 2 ^ 64 - 1, 1⟩ (1/2) (1/2)).2.2.1
     (by norm_num) rfl⟩

/-- Reading back `k` season tokens recovers exactly the list that was
written. -/
theorem readSeasonsTok_append (l : List ℚ) (r : List Tok) :
    readSeasonsTok l.length (l.map Tok.tf ++ r) = some (l, r) := by
  induction l with
  | nil => simp [readSeasonsTok]
  | cons x xs ih => simp [readSeasonsTok, readTokF, ih]

/-- Enumerating a list through `getD` over its index range is the list
itself. -/
theorem range_map_getD (l : List ℚ) :
    (List.range l.length).map (fun i => l.getD i 0) = l := by
  induction l with
  | nil => simp
  | cons x xs ih =>
    rw [List.length_cons, List.range_succ_eq_map, List.map_cons, List.map_map]
    show x :: (List.range xs.length).map ((fun i => (x :: xs).getD i 0) ∘ Nat.succ) = x :: xs
    have hcomp : ((fun i => (x :: xs).getD i 0) ∘ Nat.succ) = fun i => xs.getD i 0 := by
      funext i
      simp [List.getD_cons_succ]
    rw [hcomp, ih]

/-- C6: deserializing the bytes produced by serializing a
Holt-Winters-with-time state with non-trivial seasons and first markers
reconstructs the state field for field (including the markers' was-set
flags), consuming the whole stream. -/
theorem c6_roundtrip (n : ℕ) (s : HWTimeData) (l : List ℚ)
    (hs : s.seasons = some l) (hl : l.length = n)
    (hfv : s.first_value.was = true) (hft : s.first_trend.was = true) :
    hwDeserialize n (hwSerialize n s) = some (s, []) := by
  obtain ⟨v, tr, seas, ts, fv, ft⟩ := s
  subst hs
  subst hl
  have hser : (List.range l.length).map (fun i => Tok.tf (l.getD i 0)) = l.map Tok.tf := by
    conv_rhs => rw [← range_map_getD l]
    rw [List.map_map]
    rfl
  simp only [hwSerialize, getSeason]
  rw [hser]
  simp [hwDeserialize, readTokF, readTokN, readTokB, readSeasonsTok_append]

/-- Witness for C6 at a concrete two-season state with set markers. -/
theorem c6_roundtrip_witness :
    hwDeserialize 2 (hwSerialize 2 ⟨3, 4, some [5, 6], 7, ⟨1, 2, true⟩, ⟨8, 9, true⟩⟩)
      = some (⟨3, 4, some [5, 6], 7, ⟨1, 2, true⟩, ⟨8, 9, true⟩⟩, []) :=
  c6_roundtrip 2 ⟨3, 4, some [5, 6], 7, ⟨1, 2, true⟩, ⟨8, 9, true⟩⟩ [5, 6] rfl rfl rfl rfl

/-- C7 (code-bug evidence): with `seasons_count = 4` the first four add
calls touch the four seasonal slots exactly once each (slots 0,1,2,3 in
order), and `insertResultInto` pushes four season values; but
`createResultType` declares the result as a tuple of three plain Float64
columns, i.e. its seasons component is a scalar, not a length-4 array. -/
theorem c7_result_shape :
    hwSlotsTouched 4 4 = [0, 1, 2, 3] ∧
    hwInsertPushCounts 4 = [1, 1, 4] ∧
    hwCreateResultType = .tupleT [.float64, .float64, .float64] ∧
    hwCreateResultType ≠ .tupleT [.float64, .float64, .arrayT .float64] := by
  refine ⟨by decide, rfl, rfl, ?_⟩
  intro h
  injection h with h2
  simp at h2
